import Mathlib

/-!
Verification of the query-geometry and multi-file decode orchestration layer
of the nasa-encoding-framework repository (src/idx2-test/idx2-test.cpp).

The C++ code is shallowly embedded: machine `int`/`i64` values are modelled
as `Int` (no overflow occurs in any of the stated properties), C++ integer
division (which truncates toward zero) is modelled by `Int.tdiv`, and
`double` values are modelled by `ℚ`.  Small helpers of the external idx2
single-file library (idx2.hpp: `v3i`, `extent`, `grid`, `Crop`,
`BoundingBox`, `Slab`, componentwise comparisons) are embedded from their
library definitions and documented at each definition.
-/

namespace Idx2Test

/-- idx2::dimension — axis selector (X = 0, Y = 1, Z = 2). -/
inductive dimension where
  | X
  | Y
  | Z
deriving DecidableEq

/-- idx2::v3i — a vector of three machine integers. -/
structure v3i where
  X : Int
  Y : Int
  Z : Int
deriving DecidableEq

/-- Componentwise combination of two `v3i` (idx2 defines `+`, `-`, `/`,
`Min`, `Max` on `v3i` componentwise). -/
def v3i.map2 (f : Int → Int → Int) (a b : v3i) : v3i :=
  ⟨f a.X b.X, f a.Y b.Y, f a.Z b.Z⟩

instance : Add v3i := ⟨v3i.map2 (· + ·)⟩

instance : Sub v3i := ⟨v3i.map2 (· - ·)⟩

/-- The all-zero vector `idx2::v3i(0)`. -/
def v3i.zero : v3i := ⟨0, 0, 0⟩

/-- The all-one vector `idx2::v3i(1)`. -/
def v3i.one : v3i := ⟨1, 1, 1⟩

/-- Component access `v[D]` for `D` in 0..2. -/
def v3i.nth (v : v3i) : dimension → Int
  | .X => v.X
  | .Y => v.Y
  | .Z => v.Z

/-- Component update `v[D] = a`. -/
def v3i.set (v : v3i) (d : dimension) (a : Int) : v3i :=
  match d with
  | .X => { v with X := a }
  | .Y => { v with Y := a }
  | .Z => { v with Z := a }

/-- Componentwise minimum (idx2 `Min` on `v3i`). -/
def v3i.minv (a b : v3i) : v3i := v3i.map2 min a b

/-- Componentwise maximum (idx2 `Max` on `v3i`). -/
def v3i.maxv (a b : v3i) : v3i := v3i.map2 max a b

/-- idx2's componentwise `operator>` on `v3i` returns true only when every
component is greater (used as `Dims(OutGrid) > 0` in the allocation guards
at idx2-test.cpp:179 and idx2-test.cpp:306). -/
def v3i.gtAll (a b : v3i) : Bool :=
  decide (b.X < a.X) && decide (b.Y < a.Y) && decide (b.Z < a.Z)

/-- C++ integer division: truncation toward zero. -/
def cdiv (a b : Int) : Int := Int.tdiv a b

/-- The stride produced by `Strd3[D] <<= DownsamplingFactor3[D]` starting
from 1 (idx2-test.cpp:243-245): `1 << k = 2 ^ k`.  A negative shift count is
undefined behaviour in C++; the downsampling factors appearing in the claims
are nonnegative, and `Int.toNat` maps them to the matching exponent. -/
def strideOf (k : Int) : Int := 2 ^ k.toNat

/-- Scalar form of one axis of the cropping in `GetGrid`: the first
coordinate after intersecting with `[0, dimv)`. -/
def cropFirst (f : Int) : Int := max f 0

/-- Scalar form of one axis of the cropping in `GetGrid`: the last
coordinate after intersecting with `[0, dimv)`. -/
def cropLast (dimv l : Int) : Int := min l (dimv - 1)

/-- Scalar form of `First3 = (First3 / Strd3) * Strd3` (idx2-test.cpp:250):
move the first coordinate down to a multiple of the stride. -/
def snapFirst (s f : Int) : Int := cdiv f s * s

/-- Scalar form of `Last3 = ((Last3 + Strd3 - 1) / Strd3) * Strd3`
(idx2-test.cpp:249): move the last coordinate up to a multiple of the
stride. -/
def snapLast (s l : Int) : Int := cdiv (l + s - 1) s * s

/-- idx2::extent — an axis-aligned box given by its first corner and its
size; `Last = From + Dims - 1` (inclusive). -/
structure extent where
  From : v3i
  Dims : v3i
deriving DecidableEq

/-- idx2 `Last(extent) = From + Dims - 1`. -/
def extent.Last (e : extent) : v3i := e.From + e.Dims - v3i.one

/-- The constructor `idx2::extent(Dims3)`: from 0, size `Dims3`. -/
def extent.ofDims (d : v3i) : extent := ⟨v3i.zero, d⟩

/-- idx2 library helper (idx2.hpp): `Crop(Ext1, Ext2)` intersects two
extents: the first corner is the componentwise max of the first corners, the
last corner the componentwise min of the last corners; the resulting `Dims`
may be nonpositive when the intersection is empty (no clamping). -/
def Crop (e1 e2 : extent) : extent :=
  let f := v3i.maxv e1.From e2.From
  let l := v3i.minv e1.Last e2.Last
  ⟨f, l - f + v3i.one⟩

/-- idx2 library helper (idx2.hpp): `BoundingBox(Ext1, Ext2)` is the least
box containing both: componentwise min of firsts and max of lasts. -/
def BoundingBox (e1 e2 : extent) : extent :=
  let f := v3i.minv e1.From e2.From
  let l := v3i.maxv e1.Last e2.Last
  ⟨f, l - f + v3i.one⟩

/-- idx2::grid — first corner, per-axis sample count, per-axis stride. -/
structure grid where
  From : v3i
  Dims : v3i
  Strd : v3i
deriving DecidableEq

/-- idx2 `Last(grid)[D] = From[D] + (Dims[D] - 1) * Strd[D]` — the last
sample coordinate of the grid along axis `D`. -/
def grid.LastCoord (g : grid) (d : dimension) : Int :=
  g.From.nth d + (g.Dims.nth d - 1) * g.Strd.nth d

/-- GetGrid (idx2-test.cpp:239-253): crop the requested extent to the
volume, build the per-axis stride `1 << DownsamplingFactor3[D]`, move the
cropped last coordinate up to the next multiple of the stride and the
cropped first coordinate down to the previous multiple, and return
`grid(First3, (Last3 - First3) / Strd3 + 1, Strd3)`. -/
def GetGrid (Dims3 DownsamplingFactor3 : v3i) (Ext : extent) : grid :=
  let CroppedExt := Crop Ext (extent.ofDims Dims3)
  let Strd3 : v3i :=
    ⟨strideOf DownsamplingFactor3.X, strideOf DownsamplingFactor3.Y,
      strideOf DownsamplingFactor3.Z⟩
  let First3 := CroppedExt.From
  let Last3 := CroppedExt.Last
  let Last3s := v3i.map2 (fun l s => cdiv (l + s - 1) s * s) Last3 Strd3
  let First3s := v3i.map2 (fun f s => cdiv f s * s) First3 Strd3
  ⟨First3s, v3i.map2 cdiv (Last3s - First3s) Strd3 + v3i.one, Strd3⟩

/-- Error codes used by idx2-test.cpp (a fragment of idx2's
`idx2_err_code` taxonomy: only the codes the embedded functions mention). -/
inductive err_code where
  | NoError
  | SizeTooSmall
  | InvalidRange
  | DimensionMismatched
  | CodecError
deriving DecidableEq

/-- struct input (idx2-test.cpp:25-31): file identifier, requested extent
(the all-zero-dims extent is the "whole volume" sentinel), per-axis
downsampling factor and accuracy. -/
structure input where
  InFile : String
  Extent : extent
  Downsampling3 : v3i
  Accuracy : ℚ
deriving DecidableEq

instance : Inhabited input := ⟨⟨"", extent.ofDims v3i.zero, v3i.zero, 0⟩⟩

/-- Local GetOutputGrid (idx2-test.cpp:255-267): a default (all-zero-dims)
extent means the whole volume; otherwise use the requested extent. -/
def GetOutputGrid (Dims3 : v3i) (Input : input) : grid :=
  if Input.Extent.Dims = v3i.zero then
    GetGrid Dims3 Input.Downsampling3 (extent.ofDims Dims3)
  else
    GetGrid Dims3 Input.Downsampling3 Input.Extent

/-- The allocation guard used at idx2-test.cpp:179 and idx2-test.cpp:306:
`if (!OutBuffer && Dims(OutGrid) > 0) AllocBuf(...)` — a buffer is
allocated only when none is preallocated and every grid dimension is
positive. -/
def shouldAllocate (hasPreallocated : Bool) (dims3 : v3i) : Bool :=
  !hasPreallocated && dims3.gtAll v3i.zero

/-- idx2::volume (function-backed): a dimension vector together with the
sample value at each coordinate (row-major storage is abstracted into the
coordinate-indexed sample map; `double`/`float32` values are modelled as
`ℚ`). -/
structure volume where
  Dims : v3i
  At : v3i → ℚ

/-- The constructor `idx2::extent(Vol)`: from 0, size `Dims(Vol)`. -/
def extent.ofVolume (v : volume) : extent := extent.ofDims v.Dims

/-- idx2's `Vol.At<t>(E, P)` — the sample of `Vol` at position
`From(E) + P`. -/
def volume.AtExt (v : volume) (E : extent) (P : v3i) : ℚ := v.At (E.From + P)

/-- idx2 library helper (idx2.hpp): `Slab(Ext, D, N)` restricts `Ext` along
axis `D` to its first `N` layers when `N > 0` and to its last `|N|` layers
when `N < 0` (so `Slab(E, D, 1)` is the low-side slab at `From(E)[D]` and
`Slab(E, D, -1)` is the high-side slab at `Last(E)[D]`). -/
def Slab (Ext : extent) (D : dimension) (N : Int) : extent :=
  let Dims3 := Ext.Dims
  let From3 :=
    if N < 0 then Ext.From.set D (Ext.From.nth D + Dims3.nth D + N) else Ext.From
  ⟨From3, Dims3.set D N.natAbs⟩

/-- CollapseByInterpolation (idx2-test.cpp:211-237): with `E1` the low-side
slab and `E2` the high-side slab of the volume along `D`, produce the volume
of dims `Dims(E1)` whose sample at `P` is
`Vol.At(E1, P) * T + Vol.At(E2, P) * (1 - T)` (the triple loop of the source
writes exactly this value at every in-range `P`). -/
def CollapseByInterpolation (Vol : volume) (D : dimension) (T : ℚ) : volume :=
  let E := extent.ofVolume Vol
  let E1 := Slab E D 1
  let E2 := Slab E D (-1)
  { Dims := E1.Dims
    At := fun P => Vol.AtExt E1 P * T + Vol.AtExt E2 P * (1 - T) }

/-- The state mutated by the slice-collapsing loop of DecodeOneFile
(idx2-test.cpp:189-201): the working volume and the `From3`/`Dims3` vectors
that are written back into `Output->OutGrid` after the loop. -/
structure collapse_state where
  Vol : volume
  From3 : v3i
  Dims3 : v3i

/-- The interpolation weight computed at idx2-test.cpp:195:
`T = (Frst(DecodeExtent)[D] - Frst(OutGrid)[D]) / (Last(OutGrid)[D] - Frst(OutGrid)[D])`
(a C++ `double`, modelled as `ℚ`). -/
def collapseWeight (DecodeExtent : extent) (OutGrid : grid) (D : dimension) : ℚ :=
  ((DecodeExtent.From.nth D : ℚ) - (OutGrid.From.nth D : ℚ)) /
    ((OutGrid.LastCoord D : ℚ) - (OutGrid.From.nth D : ℚ))

/-- One iteration of the collapsing loop of DecodeOneFile
(idx2-test.cpp:193-201): when the requested extent is 1 wide along `D` but
the snapped output grid is 2 wide, compute the interpolation weight,
collapse the volume along `D` and rewrite `From3[D]`/`Dims3[D]` to the
requested position with size 1. -/
def collapseIter (DecodeExtent : extent) (OutGrid : grid) (S : collapse_state)
    (D : dimension) : collapse_state :=
  if DecodeExtent.Dims.nth D = 1 ∧ OutGrid.Dims.nth D = 2 then
    { Vol := CollapseByInterpolation S.Vol D (collapseWeight DecodeExtent OutGrid D)
      From3 := S.From3.set D (DecodeExtent.From.nth D)
      Dims3 := S.Dims3.set D 1 }
  else
    S

/-- The full collapsing stage of DecodeOneFile (idx2-test.cpp:189-204): the
loop `for (int D = 2; D >= 0; --D)` over `collapseIter`, starting from the
decoded volume and the output grid's `From3`/`Dims3`. -/
def decodeCollapseStage (DecodeExtent : extent) (OutGrid : grid)
    (Vol : volume) : collapse_state :=
  [dimension.Z, dimension.Y, dimension.X].foldl
    (collapseIter DecodeExtent OutGrid) ⟨Vol, OutGrid.From, OutGrid.Dims⟩

/-- A concrete requested extent used by witness theorems: the slice X=1 of
a 5x5x5 volume. -/
def exSliceExtent : extent := ⟨⟨1, 0, 0⟩, ⟨1, 5, 5⟩⟩

/-- A concrete collapse-loop state used by witness theorems: a decoded
2x5x5 volume (all samples 0) with the matching grid geometry. -/
def exCollapseState : collapse_state :=
  ⟨⟨⟨2, 5, 5⟩, fun _ => 0⟩, ⟨0, 0, 0⟩, ⟨2, 5, 5⟩⟩

/-- A concrete batch of two queries targeting the same file, used by
witness theorems. -/
def exBatch : List input :=
  [⟨"a", ⟨⟨0, 0, 0⟩, ⟨2, 2, 1⟩⟩, ⟨0, 0, 0⟩, 1⟩,
    ⟨"a", ⟨⟨1, 1, 0⟩, ⟨3, 1, 1⟩⟩, ⟨1, 1, 1⟩, 2⟩]

/-- Modelled from the spec: `idx2::GetOutputGrid(Idx2, P)` — the codec's
output-grid computation called at idx2-test.cpp:175 lives in the external
idx2.hpp library, not in this repository's sources; spec §4.1 specifies the
same crop-and-snap computation as the local `GetGrid`
(idx2-test.cpp:239-253), so the library call is modelled by it. -/
def idx2GetOutputGrid (Dims3 DownsamplingFactor3 : v3i) (Ext : extent) : grid :=
  GetGrid Dims3 DownsamplingFactor3 Ext

/-- Number of elements a member's output buffer must hold:
`MinBufSize = SizeOf(DataType) * Prod(Dims(OutGrid))` (idx2-test.cpp:305),
modelled in elements instead of bytes (the element size is a positive
constant factor on both sides of the comparison). -/
def minBufElems (dims3 : v3i) : Int := dims3.X * dims3.Y * dims3.Z

/-- The result-distribution step of RunQueryTask for one member query
(idx2-test.cpp:300-320), with the decoded covering result
`(coveringGrid, coveringBuf)` and the member's preallocated buffer
(`none` = unallocated).  It recomputes the member's grid, allocates the
member's buffer when unset (a fresh `AllocBuf` allocation is uninitialized;
modelled as zero-filled), checks the preallocated size, computes the
relative extents `FromE`/`ToE` — and then stops: the element-by-element copy
`CopyExtentExtent(FromE, FromV, ToE, &ToV)` at idx2-test.cpp:319 is
commented out in the source, so the member's buffer contents are never
written and the decoded samples in `coveringBuf` are never read. -/
def distributeToMember (decodedDims3 : v3i) (coveringGrid : grid)
    (coveringBuf : List ℚ) (memberInput : input)
    (memberBuf : Option (List ℚ)) : Except err_code (grid × List ℚ) :=
  let OutGrid := GetOutputGrid decodedDims3 memberInput
  let buf : List ℚ :=
    match memberBuf with
    | none =>
      if shouldAllocate false OutGrid.Dims then
        List.replicate (minBufElems OutGrid.Dims).toNat 0
      else
        []
    | some b => b
  if (buf.length : Int) < minBufElems OutGrid.Dims then
    Except.error err_code.SizeTooSmall
  else
    Except.ok (OutGrid, buf)

/-- The effect of one RunQueryTask execution (idx2-test.cpp:270-326) on the
shared `NumThreads` counter: when `DecodeOneFile` fails the function returns
at idx2-test.cpp:292, *before* the `--NumThreads` at idx2-test.cpp:322, so
the counter is decremented only on the success path. -/
def runQueryTaskCounter (decodeOk : Bool) (numThreads : Int) : Int :=
  if decodeOk then numThreads - 1 else numThreads

/-- The value of `NumThreads` after DecodeMultipleFiles
(idx2-test.cpp:357-371) has spawned one task per group (`++NumThreads`
before each spawn) and every spawned task has run to completion, given each
group's decode outcome.  Increments and decrements of the shared atomic
counter commute, so the interleaved concurrent execution is modelled by the
sequential fold. -/
def batchCounterAfter (decodeOks : List Bool) : Int :=
  decodeOks.foldl (fun n ok => runQueryTaskCounter ok (n + 1)) 0

/-- The completion wait of DecodeMultipleFiles (idx2-test.cpp:373-375):
`while (NumThreads > 0) sleep;` exits exactly when the counter is
nonpositive. -/
def waitLoopExits (numThreads : Int) : Bool := decide (numThreads ≤ 0)

/-- Insertion of one element into a list sorted by file identifier (the
order used by the `std::sort` comparator at idx2-test.cpp:353-355). -/
def insertByFile (a : input × Nat) : List (input × Nat) → List (input × Nat)
  | [] => [a]
  | b :: l =>
    if a.1.InFile ≤ b.1.InFile then a :: b :: l else b :: insertByFile a l

/-- The sorting step of DecodeMultipleFiles (idx2-test.cpp:349-355): pair
each input with its original position, then sort by file identifier.
`std::sort`'s order among equal keys is unspecified; it is modelled by a
stable insertion sort, and the claims refer to the sorted order itself. -/
def sortInputs (Inputs : List input) : List (input × Nat) :=
  (Inputs.enum.map (fun p => (p.2, p.1))).foldr insertByFile []

/-- One step of run-partitioning (the `I`/`Begin` loop of
idx2-test.cpp:357-371 seen from the right): an element joins the group in
front of it when it has the same file identifier, and opens a new group
otherwise. -/
def groupStep (a : input × Nat) (gs : List (List (input × Nat))) :
    List (List (input × Nat)) :=
  match gs with
  | [] => [[a]]
  | g :: gs' =>
    match g with
    | [] => [a] :: gs'
    | b :: _ => if a.1.InFile = b.1.InFile then (a :: g) :: gs' else [a] :: g :: gs'

/-- The grouping performed by DecodeMultipleFiles (idx2-test.cpp:357-371):
partition the sorted inputs into maximal runs `[Begin, I)` of equal file
identifier; each run is handed to one RunQueryTask. -/
def groupRuns (l : List (input × Nat)) : List (List (input × Nat)) :=
  l.foldr groupStep []

/-- The covering input a RunQueryTask builds for its group
(idx2-test.cpp:278-286): the extent is accumulated with `BoundingBox` over
every member starting from the first member's extent, and the file
identifier, accuracy and downsampling factor are taken from the first
member (`SortedInputs[Begin]`). -/
def coveringInput (grp : List (input × Nat)) : input :=
  match grp with
  | [] => default
  | h :: _ =>
    { InFile := h.1.InFile
      Extent := grp.foldl (fun e m => BoundingBox e m.1.Extent) h.1.Extent
      Downsampling3 := h.1.Downsampling3
      Accuracy := h.1.Accuracy }

/-- The decode invocations performed by one DecodeMultipleFiles call: one
`DecodeOneFile` call per group (idx2-test.cpp:290 inside the task spawned at
idx2-test.cpp:366), with the covering input of that group. -/
def decodeCalls (Inputs : List input) : List input :=
  (groupRuns (sortInputs Inputs)).map coveringInput

/-- DecodeMultipleFiles (idx2-test.cpp:339-378) as observed by its caller:
the returned error code together with the decode invocations it schedules.
The emptiness of the input list is checked only by the debug-only
`idx2_Assert` at idx2-test.cpp:345 (compiled out in release builds, and
never a returned error); the function body then groups, spawns, waits, and
returns `NoError` unconditionally (idx2-test.cpp:377). -/
def DecodeMultipleFiles (Inputs : List input) : err_code × List input :=
  (err_code.NoError, decodeCalls Inputs)

/-- struct range (idx2-test.cpp:381-386): a [Begin, End) interval. -/
structure range where
  Begin : Int
  End : Int
deriving DecidableEq

/-- struct spatial_range (idx2-test.cpp:389-395). -/
structure spatial_range where
  Face : Int
  XRange : range
  YRange : range
deriving DecidableEq

/-- enum class order (idx2-test.cpp:398-407): the relative order of
Time/Face/Depth in the output buffer; in `DepthFaceTime`, Time varies
fastest, then Face, then Depth, and symmetrically for the rest. -/
inductive order where
  | DepthFaceTime
  | DepthTimeFace
  | FaceTimeDepth
  | FaceDepthTime
  | TimeDepthFace
  | TimeFaceDepth
deriving DecidableEq

/-- GetStrides (idx2-test.cpp:591-618), returning
`v3i(FaceStride, DepthStride, TimeStride)`. -/
def GetStrides (NumFaces NumDepths NumTimes : Int) (Order : order) : v3i :=
  match Order with
  | .DepthFaceTime => ⟨NumTimes, NumFaces * NumTimes, 1⟩
  | .DepthTimeFace => ⟨1, NumTimes * NumFaces, NumFaces⟩
  | .FaceDepthTime => ⟨NumDepths * NumTimes, NumTimes, 1⟩
  | .FaceTimeDepth => ⟨NumTimes * NumDepths, 1, NumDepths⟩
  | .TimeDepthFace => ⟨1, NumFaces, NumDepths * NumFaces⟩
  | .TimeFaceDepth => ⟨NumDepths, 1, NumFaces * NumDepths⟩

/-- The flat output index of ExecuteQuery (idx2-test.cpp:642):
`Index = T * TimeStride + F * FaceStride + D * DepthStride` where the
strides are `v3i(FaceStride, DepthStride, TimeStride)`. -/
def flatIndex (Strides3 : v3i) (F D T : Int) : Int :=
  T * Strides3.Z + F * Strides3.X + D * Strides3.Y

/-- struct output_metadata (idx2-test.cpp:583-588). -/
structure output_metadata where
  Face : Int
  Depth : Int
  Time : Int
deriving DecidableEq

/-- The fields of struct query_info (idx2-test.cpp:416-430) consumed by the
query-generation loop of ExecuteQuery.  `NameFormat` models
`sprintf(InFile, NameFormat, Face, Depth, TimeBegin, TimeEnd)`
(idx2-test.cpp:649) as an opaque formatting function. -/
structure query_info where
  NameFormat : Int → Int → Int → Int → String
  TimeGroup : Int
  SpatialRanges : List spatial_range
  TimeRange : range
  DepthRange : range
  Order : order
  Downsampling3 : v3i
  Accuracy : ℚ

/-- The effect of `idx2::Swap(&Downsampling3.X, &Downsampling3.Y)`
(idx2-test.cpp:653). -/
def swapXY (v : v3i) : v3i := ⟨v.Y, v.X, v.Z⟩

/-- The body of the query-generation triple loop of ExecuteQuery
(idx2-test.cpp:640-658) for depth index `D`, spatial-range index `F` with
range `R`, and time index `T`: the flat index, the input written into
`Inputs[Index]` (extent from the spatial range and time step; file name from
the name format; accuracy and downsampling from the query info, with X and Y
downsampling swapped for faces above 2), and the output metadata. -/
def buildQueryEntry (Q : query_info) (Strides3 : v3i) (D F : Int)
    (R : spatial_range) (T : Int) : Int × input × output_metadata :=
  let Depth := Q.DepthRange.Begin + D
  let Time := Q.TimeRange.Begin + T
  let Index := flatIndex Strides3 F D T
  let Ext : extent :=
    ⟨⟨R.XRange.Begin, R.YRange.Begin, Time⟩,
      ⟨R.XRange.End - R.XRange.Begin, R.YRange.End - R.YRange.Begin, 1⟩⟩
  let TimeBegin := cdiv Time Q.TimeGroup
  let TimeEnd := TimeBegin + Q.TimeGroup
  let Ds :=
    if R.Face > 2 then swapXY Q.Downsampling3 else Q.Downsampling3
  (Index,
    { InFile := Q.NameFormat R.Face Depth TimeBegin TimeEnd
      Extent := Ext
      Downsampling3 := Ds
      Accuracy := Q.Accuracy },
    { Face := R.Face, Depth := Depth, Time := Time })

/-- The query-generation loop of ExecuteQuery (idx2-test.cpp:637-661): for
every depth in the depth range, every spatial range (indexed by `F`), and
every time in the time range, the assignment `Inputs[Index] = ...` /
`OutputsMetadata[Index] = ...` that the loop performs. -/
def executeQueryAssignments (Q : query_info) : List (Int × input × output_metadata) :=
  let NumDepths := Q.DepthRange.End - Q.DepthRange.Begin
  let NumTimes := Q.TimeRange.End - Q.TimeRange.Begin
  let NumFaces : Int := Q.SpatialRanges.length
  let Strides3 := GetStrides NumFaces NumDepths NumTimes Q.Order
  (List.range NumDepths.toNat).flatMap fun D =>
    Q.SpatialRanges.enum.flatMap fun FR =>
      (List.range NumTimes.toNat).flatMap fun T =>
        [buildQueryEntry Q Strides3 D FR.1 FR.2 T]

/-- A concrete query configuration used by witness theorems: two spatial
ranges (faces 1 and 3), one depth, one time step. -/
def exQueryInfo : query_info :=
  { NameFormat := fun _ _ _ _ => "n"
    TimeGroup := 32
    SpatialRanges := [⟨1, ⟨0, 2⟩, ⟨0, 2⟩⟩, ⟨3, ⟨0, 2⟩, ⟨0, 2⟩⟩]
    TimeRange := ⟨0, 1⟩
    DepthRange := ⟨0, 1⟩
    Order := order.DepthFaceTime
    Downsampling3 := ⟨1, 2, 3⟩
    Accuracy := 1 }

/-- The query generated by `exQueryInfo` for its face-3 spatial range (flat
index 1), used by witness theorems. -/
def exEntry : Int × input × output_metadata :=
  (1, ⟨"n", ⟨⟨0, 0, 0⟩, ⟨2, 2, 1⟩⟩, ⟨2, 1, 3⟩, 1⟩, ⟨3, 0, 0⟩)

theorem v3i.add_def (a b : v3i) : a + b = ⟨a.X + b.X, a.Y + b.Y, a.Z + b.Z⟩ := rfl

theorem v3i.sub_def (a b : v3i) : a - b = ⟨a.X - b.X, a.Y - b.Y, a.Z - b.Z⟩ := rfl

theorem strideOf_pos (k : Int) : 0 < strideOf k :=
  pow_pos (by norm_num) _

theorem cdiv_eq_ediv {a b : Int} (ha : 0 ≤ a) (hb : 0 ≤ b) : cdiv a b = a / b :=
  Int.tdiv_eq_ediv ha hb

theorem snapFirst_dvd (s f : Int) : s ∣ snapFirst s f :=
  ⟨cdiv f s, by rw [snapFirst]; ring⟩

theorem snapLast_dvd (s l : Int) : s ∣ snapLast s l :=
  ⟨cdiv (l + s - 1) s, by rw [snapLast]; ring⟩

theorem snapFirst_le {s f : Int} (hs : 0 < s) (hf : 0 ≤ f) : snapFirst s f ≤ f := by
  rw [snapFirst, cdiv_eq_ediv hf hs.le]
  exact Int.ediv_mul_le f (ne_of_gt hs)

theorem lt_snapFirst_add {s f : Int} (hs : 0 < s) (hf : 0 ≤ f) :
    f < snapFirst s f + s := by
  rw [snapFirst, cdiv_eq_ediv hf hs.le]
  have h := Int.lt_ediv_add_one_mul_self f hs
  calc f < (f / s + 1) * s := h
    _ = f / s * s + s := by ring

theorem le_snapLast {s l : Int} (hs : 0 < s) (hl : 0 ≤ l) : l ≤ snapLast s l := by
  rw [snapLast, cdiv_eq_ediv (by omega) hs.le]
  have hmod := Int.lt_iff_add_one_le.mp (Int.emod_lt_of_pos (l + s - 1) hs)
  have hdiv := Int.ediv_add_emod (l + s - 1) s
  have hc : (l + s - 1) / s * s = s * ((l + s - 1) / s) := mul_comm _ _
  linarith

theorem snapLast_min {s l m : Int} (hs : 0 < s) (hl : 0 ≤ l) (hdvd : s ∣ m)
    (hlm : l ≤ m) : snapLast s l ≤ m := by
  obtain ⟨k, rfl⟩ := hdvd
  rw [snapLast, cdiv_eq_ediv (by omega) hs.le]
  have hq : (l + s - 1) / s ≤ k := by
    by_contra hcon
    push_neg at hcon
    have h1 : k + 1 ≤ (l + s - 1) / s := by omega
    have h2 : (k + 1) * s ≤ l + s - 1 := (Int.le_ediv_iff_mul_le hs).mp h1
    have h3 : k * s = s * k := mul_comm _ _
    linarith
  calc (l + s - 1) / s * s ≤ k * s := mul_le_mul_of_nonneg_right hq hs.le
    _ = s * k := mul_comm _ _

theorem extent.Last_nth (e : extent) (d : dimension) :
    e.Last.nth d = e.From.nth d + e.Dims.nth d - 1 := by
  cases d <;> rfl

theorem crop_dims_nth (e1 e2 : extent) (d : dimension) :
    (Crop e1 e2).Dims.nth d =
      min (e1.Last.nth d) (e2.Last.nth d) - max (e1.From.nth d) (e2.From.nth d) + 1 := by
  cases d <;> rfl

theorem getGrid_from_nth (Dims3 ds : v3i) (Ext : extent) (d : dimension) :
    (GetGrid Dims3 ds Ext).From.nth d =
      snapFirst (strideOf (ds.nth d)) (cropFirst (Ext.From.nth d)) := by
  cases d <;> rfl

theorem getGrid_strd_nth (Dims3 ds : v3i) (Ext : extent) (d : dimension) :
    (GetGrid Dims3 ds Ext).Strd.nth d = strideOf (ds.nth d) := by
  cases d <;> rfl

theorem gg_dims_scalar (s f l dimv : Int) :
    cdiv (cdiv (max f 0 + (min l (0 + dimv - 1) - max f 0 + 1) - 1 + s - 1) s * s -
        cdiv (max f 0) s * s) s + 1 =
      cdiv (snapLast s (cropLast dimv l) - snapFirst s (cropFirst f)) s + 1 := by
  simp only [snapLast, snapFirst, cropLast, cropFirst]
  have h : max f 0 + (min l (0 + dimv - 1) - max f 0 + 1) - 1 + s - 1 =
      min l (dimv - 1) + s - 1 := by omega
  rw [h]

theorem getGrid_dims_nth (Dims3 ds : v3i) (Ext : extent) (d : dimension) :
    (GetGrid Dims3 ds Ext).Dims.nth d =
      cdiv (snapLast (strideOf (ds.nth d)) (cropLast (Dims3.nth d) (Ext.Last.nth d)) -
          snapFirst (strideOf (ds.nth d)) (cropFirst (Ext.From.nth d)))
        (strideOf (ds.nth d)) + 1 := by
  cases d
  · exact gg_dims_scalar (strideOf ds.X) Ext.From.X Ext.Last.X Dims3.X
  · exact gg_dims_scalar (strideOf ds.Y) Ext.From.Y Ext.Last.Y Dims3.Y
  · exact gg_dims_scalar (strideOf ds.Z) Ext.From.Z Ext.Last.Z Dims3.Z

theorem getGrid_lastCoord (Dims3 ds : v3i) (Ext : extent) (d : dimension) :
    (GetGrid Dims3 ds Ext).LastCoord d =
      snapLast (strideOf (ds.nth d)) (cropLast (Dims3.nth d) (Ext.Last.nth d)) := by
  rw [grid.LastCoord, getGrid_from_nth, getGrid_strd_nth, getGrid_dims_nth]
  have hdvd : strideOf (ds.nth d) ∣
      (snapLast (strideOf (ds.nth d)) (cropLast (Dims3.nth d) (Ext.Last.nth d)) -
        snapFirst (strideOf (ds.nth d)) (cropFirst (Ext.From.nth d))) :=
    dvd_sub (snapLast_dvd _ _) (snapFirst_dvd _ _)
  have hc : cdiv (snapLast (strideOf (ds.nth d)) (cropLast (Dims3.nth d) (Ext.Last.nth d)) -
      snapFirst (strideOf (ds.nth d)) (cropFirst (Ext.From.nth d))) (strideOf (ds.nth d)) *
      strideOf (ds.nth d) =
      snapLast (strideOf (ds.nth d)) (cropLast (Dims3.nth d) (Ext.Last.nth d)) -
        snapFirst (strideOf (ds.nth d)) (cropFirst (Ext.From.nth d)) :=
    Int.tdiv_mul_cancel hdvd
  have h1 : cdiv (snapLast (strideOf (ds.nth d)) (cropLast (Dims3.nth d) (Ext.Last.nth d)) -
      snapFirst (strideOf (ds.nth d)) (cropFirst (Ext.From.nth d))) (strideOf (ds.nth d)) + 1 - 1 =
      cdiv (snapLast (strideOf (ds.nth d)) (cropLast (Dims3.nth d) (Ext.Last.nth d)) -
        snapFirst (strideOf (ds.nth d)) (cropFirst (Ext.From.nth d))) (strideOf (ds.nth d)) := by
    omega
  rw [h1, hc]
  omega

/-- C6 (amended): for every requested extent that is nonempty and contained
in `[0, volumeDims)` on an axis (so that cropping leaves that axis
unchanged), the grid returned by GetGrid has, on that axis, a first
coordinate that is a multiple of the stride s = 2^downsamplingFactor, and a
last coordinate (first + (dims - 1) * stride) that is the smallest multiple
of s greater than or equal to the requested last coordinate.  (As stated
over *every* extent the claim fails: snapping is applied to the extent
cropped to the volume, see the counterexample.) -/
theorem getGrid_snap_first_multiple_last_smallest (Dims3 ds : v3i) (Ext : extent)
    (d : dimension) (h0 : 0 ≤ Ext.From.nth d) (hin : Ext.Last.nth d < Dims3.nth d)
    (hne : 0 < Ext.Dims.nth d) :
    strideOf (ds.nth d) ∣ (GetGrid Dims3 ds Ext).From.nth d ∧
    strideOf (ds.nth d) ∣ (GetGrid Dims3 ds Ext).LastCoord d ∧
    Ext.Last.nth d ≤ (GetGrid Dims3 ds Ext).LastCoord d ∧
    (∀ m : Int, strideOf (ds.nth d) ∣ m → Ext.Last.nth d ≤ m →
      (GetGrid Dims3 ds Ext).LastCoord d ≤ m) := by
  have hs := strideOf_pos (ds.nth d)
  have hl0 : 0 ≤ Ext.Last.nth d := by
    rw [extent.Last_nth]; omega
  have hcl : cropLast (Dims3.nth d) (Ext.Last.nth d) = Ext.Last.nth d := by
    rw [cropLast]; omega
  refine ⟨?_, ?_, ?_, ?_⟩
  · rw [getGrid_from_nth]; exact snapFirst_dvd _ _
  · rw [getGrid_lastCoord]; exact snapLast_dvd _ _
  · rw [getGrid_lastCoord, hcl]; exact le_snapLast hs hl0
  · intro m hdvd hlm
    rw [getGrid_lastCoord, hcl]
    exact snapLast_min hs hl0 hdvd hlm

/-- Witness for the amended C6 theorem at volume dims (16,1,1),
downsampling (2,0,0) (stride 4 on X) and requested extent [3,7] on X: the
hypotheses hold and the theorem applies. -/
theorem getGrid_snap_first_multiple_last_smallest_witness :
    (0 ≤ (⟨⟨3, 0, 0⟩, ⟨5, 1, 1⟩⟩ : extent).From.nth .X ∧
      (⟨⟨3, 0, 0⟩, ⟨5, 1, 1⟩⟩ : extent).Last.nth .X < (⟨16, 1, 1⟩ : v3i).nth .X ∧
      0 < (⟨⟨3, 0, 0⟩, ⟨5, 1, 1⟩⟩ : extent).Dims.nth .X) ∧
    (strideOf ((⟨2, 0, 0⟩ : v3i).nth .X) ∣
        (GetGrid ⟨16, 1, 1⟩ ⟨2, 0, 0⟩ ⟨⟨3, 0, 0⟩, ⟨5, 1, 1⟩⟩).From.nth .X ∧
      strideOf ((⟨2, 0, 0⟩ : v3i).nth .X) ∣
        (GetGrid ⟨16, 1, 1⟩ ⟨2, 0, 0⟩ ⟨⟨3, 0, 0⟩, ⟨5, 1, 1⟩⟩).LastCoord .X ∧
      (⟨⟨3, 0, 0⟩, ⟨5, 1, 1⟩⟩ : extent).Last.nth .X ≤
        (GetGrid ⟨16, 1, 1⟩ ⟨2, 0, 0⟩ ⟨⟨3, 0, 0⟩, ⟨5, 1, 1⟩⟩).LastCoord .X ∧
      (∀ m : Int, strideOf ((⟨2, 0, 0⟩ : v3i).nth .X) ∣ m →
        (⟨⟨3, 0, 0⟩, ⟨5, 1, 1⟩⟩ : extent).Last.nth .X ≤ m →
        (GetGrid ⟨16, 1, 1⟩ ⟨2, 0, 0⟩ ⟨⟨3, 0, 0⟩, ⟨5, 1, 1⟩⟩).LastCoord .X ≤ m)) :=
  ⟨⟨by decide, by decide, by decide⟩,
    getGrid_snap_first_multiple_last_smallest ⟨16, 1, 1⟩ ⟨2, 0, 0⟩
      ⟨⟨3, 0, 0⟩, ⟨5, 1, 1⟩⟩ .X (by decide) (by decide) (by decide)⟩

/-- C7 (amended): for every requested extent whose crop against
`[0, volumeDims)` is empty on some axis whose downsampling factor is 0,
GetGrid returns a grid with nonpositive (not necessarily zero) dims on that
axis, and the allocation guard used by the callers does not fire, so no
buffer is allocated.  (As stated the claim fails: with a larger stride an
empty crop can still snap to a grid with positive dims on every axis and a
buffer is then allocated, see the counterexample.) -/
theorem getGrid_empty_crop_nonpositive_no_alloc (Dims3 ds : v3i) (Ext : extent)
    (d : dimension) (b : Bool) (hds : ds.nth d = 0)
    (hempty : (Crop Ext (extent.ofDims Dims3)).Dims.nth d ≤ 0) :
    (GetGrid Dims3 ds Ext).Dims.nth d ≤ 0 ∧
    shouldAllocate b (GetGrid Dims3 ds Ext).Dims = false := by
  have hs1 : strideOf (ds.nth d) = 1 := by rw [hds]; rfl
  have hcrop : min (Ext.Last.nth d) ((extent.ofDims Dims3).Last.nth d) -
      max (Ext.From.nth d) ((extent.ofDims Dims3).From.nth d) + 1 ≤ 0 := by
    rw [← crop_dims_nth]; exact hempty
  have hof1 : (extent.ofDims Dims3).Last.nth d = Dims3.nth d - 1 := by
    rw [extent.Last_nth]
    cases d <;> simp [extent.ofDims, v3i.nth, v3i.zero]
  have hof2 : (extent.ofDims Dims3).From.nth d = 0 := by
    cases d <;> rfl
  rw [hof1, hof2] at hcrop
  have hdims : (GetGrid Dims3 ds Ext).Dims.nth d ≤ 0 := by
    rw [getGrid_dims_nth, hs1]
    have hsl : snapLast 1 (cropLast (Dims3.nth d) (Ext.Last.nth d)) =
        cropLast (Dims3.nth d) (Ext.Last.nth d) := by
      rw [snapLast]
      have h : cropLast (Dims3.nth d) (Ext.Last.nth d) + 1 - 1 =
          cropLast (Dims3.nth d) (Ext.Last.nth d) := by omega
      rw [h, cdiv, Int.tdiv_one, mul_one]
    have hsf : snapFirst 1 (cropFirst (Ext.From.nth d)) =
        cropFirst (Ext.From.nth d) := by
      rw [snapFirst, cdiv, Int.tdiv_one, mul_one]
    rw [hsl, hsf, cdiv, Int.tdiv_one, cropLast, cropFirst]
    omega
  refine ⟨hdims, ?_⟩
  cases d
  · simp only [v3i.nth] at hdims
    simp [shouldAllocate, v3i.gtAll, v3i.zero]
    intro
    omega
  · simp only [v3i.nth] at hdims
    simp [shouldAllocate, v3i.gtAll, v3i.zero]
    intro
    omega
  · simp only [v3i.nth] at hdims
    simp [shouldAllocate, v3i.gtAll, v3i.zero]
    intro
    omega

/-- Witness for the amended C7 theorem at volume dims (5,1,1), downsampling
0 and requested extent starting at X=10 (empty crop on X): the hypotheses
hold and the theorem applies. -/
theorem getGrid_empty_crop_nonpositive_no_alloc_witness :
    ((⟨0, 0, 0⟩ : v3i).nth .X = 0 ∧
      (Crop ⟨⟨10, 0, 0⟩, ⟨2, 1, 1⟩⟩ (extent.ofDims ⟨5, 1, 1⟩)).Dims.nth .X ≤ 0) ∧
    ((GetGrid ⟨5, 1, 1⟩ ⟨0, 0, 0⟩ ⟨⟨10, 0, 0⟩, ⟨2, 1, 1⟩⟩).Dims.nth .X ≤ 0 ∧
      shouldAllocate false
        (GetGrid ⟨5, 1, 1⟩ ⟨0, 0, 0⟩ ⟨⟨10, 0, 0⟩, ⟨2, 1, 1⟩⟩).Dims = false) :=
  ⟨⟨by decide, by decide⟩,
    getGrid_empty_crop_nonpositive_no_alloc ⟨5, 1, 1⟩ ⟨0, 0, 0⟩
      ⟨⟨10, 0, 0⟩, ⟨2, 1, 1⟩⟩ .X false (by decide) (by decide)⟩

/-- C9: For each of the six (face, depth, time) orderings, GetStrides
returns stride 1 for the fastest-varying axis, countFastest for the middle
axis, and countMiddle * countFastest for the slowest axis (the components
below are `(FaceStride, DepthStride, TimeStride)`); in particular, for
numFaces=5, numDepths=2, numTimes=3 and order DepthFaceTime it returns
timeStride=1, faceStride=3, depthStride=15, and the flat index of
(face=2, depth=1, time=2) is 2*3 + 1*15 + 2*1 = 23. -/
theorem getStrides_six_orderings_and_example :
    (∀ nf nd nt : Int,
      GetStrides nf nd nt .DepthFaceTime = ⟨nt, nf * nt, 1⟩ ∧
      GetStrides nf nd nt .DepthTimeFace = ⟨1, nt * nf, nf⟩ ∧
      GetStrides nf nd nt .FaceDepthTime = ⟨nd * nt, nt, 1⟩ ∧
      GetStrides nf nd nt .FaceTimeDepth = ⟨nt * nd, 1, nd⟩ ∧
      GetStrides nf nd nt .TimeDepthFace = ⟨1, nf, nd * nf⟩ ∧
      GetStrides nf nd nt .TimeFaceDepth = ⟨nd, 1, nf * nd⟩) ∧
    GetStrides 5 2 3 .DepthFaceTime = ⟨3, 15, 1⟩ ∧
    flatIndex (GetStrides 5 2 3 .DepthFaceTime) 2 1 2 = 23 :=
  ⟨fun _ _ _ => ⟨rfl, rfl, rfl, rfl, rfl, rfl⟩, by decide, by decide⟩

/-- C8 counterexample: called on the empty query list, DecodeMultipleFiles
does not reject with InvalidRange (its only emptiness check is a debug-only
assertion, and the function returns NoError). -/
theorem decodeMultipleFiles_empty_not_invalidRange :
    ¬ ((DecodeMultipleFiles []).1 = err_code.InvalidRange) := by
  decide

/-- C8 (amended): called on the empty query list, DecodeMultipleFiles
schedules no decode work and returns NoError; the emptiness of the list is
guarded only by the debug-only `idx2_Assert`, and no InvalidRange error is
ever produced. -/
theorem decodeMultipleFiles_empty_noError_no_work :
    DecodeMultipleFiles [] = (err_code.NoError, []) := by
  decide

/-- C2 (code bug, evaluated at the failing input): after a batch containing
a single group whose decode fails, the in-flight counter ends at 1 — the
failing RunQueryTask returns before `--NumThreads` — so the completion wait
of DecodeMultipleFiles never observes the counter return to zero. -/
theorem batch_single_failed_decode_counter_stuck :
    batchCounterAfter [false] = 1 ∧
    waitLoopExits (batchCounterAfter [false]) = false ∧
    runQueryTaskCounter false 1 = 1 := by
  decide

/-- C3 (code bug, evaluated at the failing input): on the volume with dims 2
along X holding low-side sample 1 (at X=0) and high-side sample 3 (at X=1),
CollapseByInterpolation at weight 0 returns the high-side sample 3 (the
claim requires the low-side sample 1), at weight 1 the low-side sample 1,
and only at weight 1/2 the arithmetic mean 2. -/
theorem collapseByInterpolation_weight_endpoints_swapped :
    (CollapseByInterpolation ⟨⟨2, 1, 1⟩, fun P => if P.X = 0 then 1 else 3⟩
        .X 0).At v3i.zero = 3 ∧
    (CollapseByInterpolation ⟨⟨2, 1, 1⟩, fun P => if P.X = 0 then 1 else 3⟩
        .X 1).At v3i.zero = 1 ∧
    (CollapseByInterpolation ⟨⟨2, 1, 1⟩, fun P => if P.X = 0 then 1 else 3⟩
        .X (1/2)).At v3i.zero = 2 := by
  refine ⟨?_, ?_, ?_⟩ <;>
  · simp only [CollapseByInterpolation, volume.AtExt, Slab, extent.ofVolume,
      extent.ofDims, v3i.set, v3i.nth, v3i.zero, v3i.add_def]
    norm_num

/-- C1 (code bug, evaluated at the failing input): distributing a decoded
group whose covering buffer holds the sample 5 to a member whose
preallocated one-element buffer holds 0 leaves the member's buffer equal to
[0] — the element-by-element copy is commented out at idx2-test.cpp:319 —
whereas the claim requires the member's buffer to hold the decoded sample
value 5. -/
theorem distributeToMember_copy_missing :
    distributeToMember ⟨1, 1, 1⟩ ⟨v3i.zero, ⟨1, 1, 1⟩, v3i.one⟩ [5]
        ⟨"llc2160/u-face-0-depth-0-time-0-32.idx2",
          ⟨v3i.zero, ⟨1, 1, 1⟩⟩, v3i.zero, 1/100⟩ (some [0]) =
      Except.ok (⟨v3i.zero, ⟨1, 1, 1⟩, v3i.one⟩, [0]) ∧
    ([0] : List ℚ) ≠ [5] :=
  ⟨rfl, by decide⟩

/-- C6 counterexample: for the requested extent [0,10]x[0,0]x[0,0] on a
volume of dims (5,5,5) at full resolution, the returned grid's last
coordinate on X is 4 (snapping is applied to the extent cropped to the
volume), which is not a multiple of the stride greater than or equal to the
original requested last coordinate 10. -/
theorem getGrid_out_of_range_last_not_covered :
    ¬ ((⟨⟨0, 0, 0⟩, ⟨11, 1, 1⟩⟩ : extent).Last.X ≤
        (GetGrid ⟨5, 5, 5⟩ v3i.zero ⟨⟨0, 0, 0⟩, ⟨11, 1, 1⟩⟩).LastCoord .X) := by
  decide

/-- C7 counterexample: the requested extent starting at X=10 on a volume of
dims (5,5,5) has an empty crop on X, yet with downsampling factor 3 on X
(stride 8) GetGrid returns the non-empty grid dims (1,5,5) and the
allocation guard fires, so a buffer is allocated. -/
theorem getGrid_empty_crop_not_empty_allocates :
    (Crop ⟨⟨10, 0, 0⟩, ⟨2, 5, 5⟩⟩ (extent.ofDims ⟨5, 5, 5⟩)).Dims.X ≤ 0 ∧
    (GetGrid ⟨5, 5, 5⟩ ⟨3, 0, 0⟩ ⟨⟨10, 0, 0⟩, ⟨2, 5, 5⟩⟩).Dims = ⟨1, 5, 5⟩ ∧
    shouldAllocate false
      (GetGrid ⟨5, 5, 5⟩ ⟨3, 0, 0⟩ ⟨⟨10, 0, 0⟩, ⟨2, 5, 5⟩⟩).Dims = true := by
  decide

theorem v3i.zero_add (P : v3i) : v3i.zero + P = P := by
  cases P
  simp [v3i.zero, v3i.add_def]

theorem v3i.nth_set_same (v : v3i) (d : dimension) (a : Int) :
    (v.set d a).nth d = a := by
  cases d <;> rfl

theorem v3i.set_zero_add {P : v3i} (d : dimension) (a : Int) (hP : P.nth d = 0) :
    v3i.zero.set d a + P = P.set d a := by
  cases d <;> cases P <;>
    (simp only [v3i.set, v3i.nth, v3i.zero, v3i.add_def, v3i.mk.injEq] at hP ⊢; omega)

theorem collapseByInterpolation_at (Vol : volume) (D : dimension) (T : ℚ)
    (hvol : Vol.Dims.nth D = 2) (P : v3i) (hP : P.nth D = 0) :
    (CollapseByInterpolation Vol D T).At P =
      Vol.At P * T + Vol.At (P.set D 1) * (1 - T) := by
  rw [CollapseByInterpolation]
  simp only [volume.AtExt, Slab, extent.ofVolume, extent.ofDims]
  have h1 : ¬ ((1 : Int) < 0) := by norm_num
  have h2 : (-1 : Int) < 0 := by norm_num
  rw [if_neg h1, if_pos h2, v3i.zero_add]
  have h3 : v3i.zero.nth D + Vol.Dims.nth D + -1 = 1 := by
    rw [hvol]; cases D <;> simp [v3i.zero, v3i.nth]
  rw [h3, v3i.set_zero_add D 1 hP]

theorem collapseByInterpolation_dims (Vol : volume) (D : dimension) (T : ℚ) :
    (CollapseByInterpolation Vol D T).Dims.nth D = 1 := by
  rw [CollapseByInterpolation]
  simp only [Slab, extent.ofVolume, extent.ofDims]
  exact v3i.nth_set_same _ _ _

/-- C4: for every collapsed axis (requested dims 1, snapped grid dims 2 on
that axis, with the requested extent inside the volume), the interpolation
weight used by the collapse loop of DecodeOneFile equals
`(requestedFirst[axis] - gridFirst[axis]) / (gridLast[axis] - gridFirst[axis])`
and lies in [0,1]; every output value of the collapse equals
`sample(low-side) * weight + sample(high-side) * (1 - weight)` (the low side
being the slab at grid coordinate 0, the high side the slab at coordinate
1); and the output dims along that axis become 1.  The codec's output grid
is modelled by `idx2GetOutputGrid` (see that definition). -/
theorem collapseIter_weight_formula_bounds_values (Dims3 ds : v3i) (Ext : extent)
    (S : collapse_state) (D : dimension)
    (h0 : 0 ≤ Ext.From.nth D) (hone : Ext.Dims.nth D = 1)
    (hg2 : (idx2GetOutputGrid Dims3 ds Ext).Dims.nth D = 2)
    (hvol : S.Vol.Dims.nth D = 2) :
    collapseIter Ext (idx2GetOutputGrid Dims3 ds Ext) S D =
      { Vol := CollapseByInterpolation S.Vol D
          (collapseWeight Ext (idx2GetOutputGrid Dims3 ds Ext) D)
        From3 := S.From3.set D (Ext.From.nth D)
        Dims3 := S.Dims3.set D 1 } ∧
    0 ≤ collapseWeight Ext (idx2GetOutputGrid Dims3 ds Ext) D ∧
    collapseWeight Ext (idx2GetOutputGrid Dims3 ds Ext) D ≤ 1 ∧
    (∀ P : v3i, P.nth D = 0 →
      (CollapseByInterpolation S.Vol D
          (collapseWeight Ext (idx2GetOutputGrid Dims3 ds Ext) D)).At P =
        S.Vol.At P * collapseWeight Ext (idx2GetOutputGrid Dims3 ds Ext) D +
          S.Vol.At (P.set D 1) *
            (1 - collapseWeight Ext (idx2GetOutputGrid Dims3 ds Ext) D)) ∧
    (CollapseByInterpolation S.Vol D
        (collapseWeight Ext (idx2GetOutputGrid Dims3 ds Ext) D)).Dims.nth D = 1 := by
  have hs := strideOf_pos (ds.nth D)
  have hcf : cropFirst (Ext.From.nth D) = Ext.From.nth D := by
    rw [cropFirst]; omega
  have hfrom : (idx2GetOutputGrid Dims3 ds Ext).From.nth D =
      snapFirst (strideOf (ds.nth D)) (Ext.From.nth D) := by
    rw [idx2GetOutputGrid, getGrid_from_nth, hcf]
  have hlc : (idx2GetOutputGrid Dims3 ds Ext).LastCoord D =
      snapFirst (strideOf (ds.nth D)) (Ext.From.nth D) + strideOf (ds.nth D) := by
    rw [grid.LastCoord, hfrom, hg2, idx2GetOutputGrid, getGrid_strd_nth]
    ring
  have hw : collapseWeight Ext (idx2GetOutputGrid Dims3 ds Ext) D =
      ((Ext.From.nth D : ℚ) -
          (snapFirst (strideOf (ds.nth D)) (Ext.From.nth D) : ℚ)) /
        (strideOf (ds.nth D) : ℚ) := by
    rw [collapseWeight, hfrom, hlc]
    have hden : ((snapFirst (strideOf (ds.nth D)) (Ext.From.nth D) +
        strideOf (ds.nth D) : Int) : ℚ) -
        (snapFirst (strideOf (ds.nth D)) (Ext.From.nth D) : ℚ) =
        (strideOf (ds.nth D) : ℚ) := by
      push_cast
      ring
    rw [hden]
  have hsq : (0 : ℚ) < (strideOf (ds.nth D) : ℚ) := by exact_mod_cast hs
  have hnum0 : 0 ≤ (Ext.From.nth D : ℚ) -
      (snapFirst (strideOf (ds.nth D)) (Ext.From.nth D) : ℚ) := by
    have h := snapFirst_le hs h0
    have hc : (snapFirst (strideOf (ds.nth D)) (Ext.From.nth D) : ℚ) ≤
        (Ext.From.nth D : ℚ) := by exact_mod_cast h
    linarith
  have hT0 : 0 ≤ collapseWeight Ext (idx2GetOutputGrid Dims3 ds Ext) D := by
    rw [hw]
    exact div_nonneg hnum0 hsq.le
  have hT1 : collapseWeight Ext (idx2GetOutputGrid Dims3 ds Ext) D ≤ 1 := by
    rw [hw, div_le_one hsq]
    have h := lt_snapFirst_add hs h0
    have hc : (Ext.From.nth D : ℚ) <
        (snapFirst (strideOf (ds.nth D)) (Ext.From.nth D) : ℚ) +
          (strideOf (ds.nth D) : ℚ) := by exact_mod_cast h
    linarith
  refine ⟨?_, hT0, hT1, ?_, collapseByInterpolation_dims _ _ _⟩
  · rw [collapseIter, if_pos ⟨hone, hg2⟩]
  · intro P hP
    exact collapseByInterpolation_at S.Vol D _ hvol P hP

/-- Witness for the C4 theorem at volume dims (5,5,5), downsampling factor
(1,0,0) and requested slice X=1: the snapped grid on X is [0,2] with dims 2
and the weight is 1/2; the hypotheses hold and the theorem applies. -/
theorem collapseIter_weight_formula_bounds_values_witness :
    (0 ≤ exSliceExtent.From.nth .X ∧
      exSliceExtent.Dims.nth .X = 1 ∧
      (idx2GetOutputGrid ⟨5, 5, 5⟩ ⟨1, 0, 0⟩ exSliceExtent).Dims.nth .X = 2 ∧
      exCollapseState.Vol.Dims.nth .X = 2) ∧
    (collapseIter exSliceExtent (idx2GetOutputGrid ⟨5, 5, 5⟩ ⟨1, 0, 0⟩ exSliceExtent)
        exCollapseState .X =
      { Vol := CollapseByInterpolation exCollapseState.Vol .X
          (collapseWeight exSliceExtent
            (idx2GetOutputGrid ⟨5, 5, 5⟩ ⟨1, 0, 0⟩ exSliceExtent) .X)
        From3 := exCollapseState.From3.set .X (exSliceExtent.From.nth .X)
        Dims3 := exCollapseState.Dims3.set .X 1 } ∧
    0 ≤ collapseWeight exSliceExtent
        (idx2GetOutputGrid ⟨5, 5, 5⟩ ⟨1, 0, 0⟩ exSliceExtent) .X ∧
    collapseWeight exSliceExtent
        (idx2GetOutputGrid ⟨5, 5, 5⟩ ⟨1, 0, 0⟩ exSliceExtent) .X ≤ 1 ∧
    (∀ P : v3i, P.nth .X = 0 →
      (CollapseByInterpolation exCollapseState.Vol .X
          (collapseWeight exSliceExtent
            (idx2GetOutputGrid ⟨5, 5, 5⟩ ⟨1, 0, 0⟩ exSliceExtent) .X)).At P =
        exCollapseState.Vol.At P *
            collapseWeight exSliceExtent
              (idx2GetOutputGrid ⟨5, 5, 5⟩ ⟨1, 0, 0⟩ exSliceExtent) .X +
          exCollapseState.Vol.At (P.set .X 1) *
            (1 - collapseWeight exSliceExtent
              (idx2GetOutputGrid ⟨5, 5, 5⟩ ⟨1, 0, 0⟩ exSliceExtent) .X)) ∧
    (CollapseByInterpolation exCollapseState.Vol .X
        (collapseWeight exSliceExtent
          (idx2GetOutputGrid ⟨5, 5, 5⟩ ⟨1, 0, 0⟩ exSliceExtent) .X)).Dims.nth .X = 1) :=
  ⟨⟨by decide, by decide, by decide, by decide⟩,
    collapseIter_weight_formula_bounds_values ⟨5, 5, 5⟩ ⟨1, 0, 0⟩ exSliceExtent
      exCollapseState .X (by decide) (by decide) (by decide) (by decide)⟩

theorem insertByFile_perm (a : input × Nat) (l : List (input × Nat)) :
    (insertByFile a l).Perm (a :: l) := by
  induction l with
  | nil => exact List.Perm.refl _
  | cons b t ih =>
    rw [insertByFile]
    split
    · exact List.Perm.refl _
    · exact (ih.cons b).trans (List.Perm.swap a b t)

theorem sortInputs_perm (Inputs : List input) :
    (sortInputs Inputs).Perm (Inputs.enum.map (fun p => (p.2, p.1))) := by
  rw [sortInputs]
  induction Inputs.enum.map (fun p => (p.2, p.1)) with
  | nil => exact List.Perm.refl _
  | cons a t ih => exact (insertByFile_perm a _).trans (ih.cons a)

theorem sortInputs_map_fst (Inputs : List input) :
    ((sortInputs Inputs).map Prod.fst).Perm Inputs := by
  have h := (sortInputs_perm Inputs).map Prod.fst
  have he : (Inputs.enum.map (fun p => (p.2, p.1))).map Prod.fst = Inputs := by
    rw [List.map_map]
    have hc : (Prod.fst ∘ fun p : Nat × input => (p.2, p.1)) = Prod.snd := by
      funext p
      rfl
    rw [hc, List.enum_map_snd]
  rw [he] at h
  exact h

theorem mem_sortInputs_fst {Inputs : List input} {m : input × Nat}
    (hm : m ∈ sortInputs Inputs) : m.1 ∈ Inputs :=
  (sortInputs_map_fst Inputs).mem_iff.mp (List.mem_map_of_mem Prod.fst hm)

theorem exists_mem_sortInputs {Inputs : List input} {i : input}
    (hi : i ∈ Inputs) : ∃ n, (i, n) ∈ sortInputs Inputs := by
  obtain ⟨m, hm, he⟩ :=
    List.mem_map.mp ((sortInputs_map_fst Inputs).mem_iff.mpr hi)
  refine ⟨m.2, ?_⟩
  have hme : (i, m.2) = m := by
    rw [← he]
  rw [hme]
  exact hm

theorem groupRuns_all_same {f : String} :
    ∀ l : List (input × Nat), l ≠ [] → (∀ m ∈ l, m.1.InFile = f) →
      groupRuns l = [l] := by
  intro l
  induction l with
  | nil => intro h; exact absurd rfl h
  | cons a t ih =>
    intro _ hall
    cases t with
    | nil => rfl
    | cons b t' =>
      have ht : groupRuns (b :: t') = [b :: t'] :=
        ih (by simp) (fun m hm => hall m (List.mem_cons_of_mem a hm))
      have hstep : groupRuns (a :: b :: t') = groupStep a (groupRuns (b :: t')) := rfl
      rw [hstep, ht, groupStep]
      have hab : a.1.InFile = b.1.InFile := by
        rw [hall a (List.mem_cons_self a (b :: t')),
          hall b (List.mem_cons_of_mem a (List.mem_cons_self b t'))]
      rw [if_pos hab]

theorem boundingBox_from_nth (e1 e2 : extent) (d : dimension) :
    (BoundingBox e1 e2).From.nth d = min (e1.From.nth d) (e2.From.nth d) := by
  cases d <;> rfl

theorem boundingBox_last_nth (e1 e2 : extent) (d : dimension) :
    (BoundingBox e1 e2).Last.nth d = max (e1.Last.nth d) (e2.Last.nth d) := by
  cases d <;>
    (simp only [BoundingBox, extent.Last, v3i.minv, v3i.maxv, v3i.map2,
      v3i.nth, v3i.add_def, v3i.sub_def, v3i.one]
     omega)

theorem foldBB_le (d : dimension) (l : List (input × Nat)) :
    ∀ e0 : extent,
      (l.foldl (fun e m => BoundingBox e m.1.Extent) e0).From.nth d ≤ e0.From.nth d ∧
      e0.Last.nth d ≤ (l.foldl (fun e m => BoundingBox e m.1.Extent) e0).Last.nth d := by
  induction l with
  | nil => intro e0; exact ⟨le_refl _, le_refl _⟩
  | cons a t ih =>
    intro e0
    have h := ih (BoundingBox e0 a.1.Extent)
    refine ⟨h.1.trans ?_, le_trans ?_ h.2⟩
    · rw [boundingBox_from_nth]
      exact min_le_left _ _
    · rw [boundingBox_last_nth]
      exact le_max_left _ _

theorem foldBB_mem_le (d : dimension) (l : List (input × Nat)) :
    ∀ e0 : extent, ∀ m ∈ l,
      (l.foldl (fun e m => BoundingBox e m.1.Extent) e0).From.nth d ≤
        m.1.Extent.From.nth d ∧
      m.1.Extent.Last.nth d ≤
        (l.foldl (fun e m => BoundingBox e m.1.Extent) e0).Last.nth d := by
  induction l with
  | nil => intro e0 m hm; exact absurd hm (List.not_mem_nil m)
  | cons a t ih =>
    intro e0 m hm
    rcases List.mem_cons.mp hm with rfl | hmt
    · have h := foldBB_le d t (BoundingBox e0 m.1.Extent)
      refine ⟨h.1.trans ?_, le_trans ?_ h.2⟩
      · rw [boundingBox_from_nth]
        exact min_le_right _ _
      · rw [boundingBox_last_nth]
        exact le_max_right _ _
    · exact ih (BoundingBox e0 a.1.Extent) m hmt

theorem foldBB_from_attained (d : dimension) (l : List (input × Nat)) :
    ∀ e0 : extent,
      (l.foldl (fun e m => BoundingBox e m.1.Extent) e0).From.nth d = e0.From.nth d ∨
      ∃ m ∈ l, (l.foldl (fun e m => BoundingBox e m.1.Extent) e0).From.nth d =
        m.1.Extent.From.nth d := by
  induction l with
  | nil => intro e0; exact Or.inl rfl
  | cons a t ih =>
    intro e0
    simp only [List.foldl_cons]
    rcases ih (BoundingBox e0 a.1.Extent) with h | ⟨m, hm, he⟩
    · rw [boundingBox_from_nth] at h
      rcases le_total (e0.From.nth d) (a.1.Extent.From.nth d) with hle | hle
      · exact Or.inl (by rw [h, min_eq_left hle])
      · exact Or.inr ⟨a, List.mem_cons_self a t, by rw [h, min_eq_right hle]⟩
    · exact Or.inr ⟨m, List.mem_cons_of_mem a hm, he⟩

theorem foldBB_last_attained (d : dimension) (l : List (input × Nat)) :
    ∀ e0 : extent,
      (l.foldl (fun e m => BoundingBox e m.1.Extent) e0).Last.nth d = e0.Last.nth d ∨
      ∃ m ∈ l, (l.foldl (fun e m => BoundingBox e m.1.Extent) e0).Last.nth d =
        m.1.Extent.Last.nth d := by
  induction l with
  | nil => intro e0; exact Or.inl rfl
  | cons a t ih =>
    intro e0
    simp only [List.foldl_cons]
    rcases ih (BoundingBox e0 a.1.Extent) with h | ⟨m, hm, he⟩
    · rw [boundingBox_last_nth] at h
      rcases le_total (e0.Last.nth d) (a.1.Extent.Last.nth d) with hle | hle
      · exact Or.inr ⟨a, List.mem_cons_self a t, by rw [h, max_eq_right hle]⟩
      · exact Or.inl (by rw [h, max_eq_left hle])
    · exact Or.inr ⟨m, List.mem_cons_of_mem a hm, he⟩

/-- C5: for every nonempty batch of queries that all carry the same file
identifier, DecodeMultipleFiles performs exactly one decode invocation; its
requested extent is the axis-wise bounding-box union of all members'
requested extents (it contains every member's extent, and each of its first
and last coordinates is attained by some member, per axis), and its
downsampling factor and accuracy are those of the group's first member in
sorted order. -/
theorem decodeMultipleFiles_single_covering_decode (Inputs : List input)
    (f : String) (hne : Inputs ≠ []) (hall : ∀ i ∈ Inputs, i.InFile = f) :
    ∃ h t, sortInputs Inputs = h :: t ∧
      (DecodeMultipleFiles Inputs).2 = [coveringInput (h :: t)] ∧
      (coveringInput (h :: t)).InFile = f ∧
      (coveringInput (h :: t)).Downsampling3 = h.1.Downsampling3 ∧
      (coveringInput (h :: t)).Accuracy = h.1.Accuracy ∧
      ∀ d : dimension,
        (∀ i ∈ Inputs,
          (coveringInput (h :: t)).Extent.From.nth d ≤ i.Extent.From.nth d ∧
          i.Extent.Last.nth d ≤ (coveringInput (h :: t)).Extent.Last.nth d) ∧
        (∃ i ∈ Inputs,
          (coveringInput (h :: t)).Extent.From.nth d = i.Extent.From.nth d) ∧
        (∃ i ∈ Inputs,
          (coveringInput (h :: t)).Extent.Last.nth d = i.Extent.Last.nth d) := by
  have hsne : sortInputs Inputs ≠ [] := by
    intro hcon
    have hlen := (sortInputs_perm Inputs).length_eq
    rw [hcon] at hlen
    simp only [List.length_nil, List.length_map, List.enum_length] at hlen
    exact hne (List.eq_nil_of_length_eq_zero hlen.symm)
  obtain ⟨h, t, hsort⟩ := List.exists_cons_of_ne_nil hsne
  have hallS : ∀ m ∈ h :: t, m.1.InFile = f := by
    intro m hm
    exact hall m.1 (mem_sortInputs_fst (hsort ▸ hm))
  have hgroup : groupRuns (h :: t) = [h :: t] :=
    groupRuns_all_same (h :: t) (List.cons_ne_nil h t) hallS
  have hcalls : (DecodeMultipleFiles Inputs).2 = [coveringInput (h :: t)] := by
    show decodeCalls Inputs = _
    rw [decodeCalls, hsort, hgroup]
    rfl
  have hcov : (coveringInput (h :: t)).Extent =
      (h :: t).foldl (fun e m => BoundingBox e m.1.Extent) h.1.Extent := rfl
  refine ⟨h, t, hsort, hcalls, ?_, rfl, rfl, ?_⟩
  · exact hallS h (List.mem_cons_self h t)
  · intro d
    refine ⟨?_, ?_, ?_⟩
    · intro i hi
      obtain ⟨n, hn⟩ := exists_mem_sortInputs hi
      rw [hsort] at hn
      have h2 := foldBB_mem_le d (h :: t) h.1.Extent (i, n) hn
      rw [hcov]
      exact h2
    · rw [hcov]
      rcases foldBB_from_attained d (h :: t) h.1.Extent with ha | ⟨m, hm, he⟩
      · exact ⟨h.1, mem_sortInputs_fst (hsort ▸ List.mem_cons_self h t), ha⟩
      · exact ⟨m.1, mem_sortInputs_fst (hsort ▸ hm), he⟩
    · rw [hcov]
      rcases foldBB_last_attained d (h :: t) h.1.Extent with ha | ⟨m, hm, he⟩
      · exact ⟨h.1, mem_sortInputs_fst (hsort ▸ List.mem_cons_self h t), ha⟩
      · exact ⟨m.1, mem_sortInputs_fst (hsort ▸ hm), he⟩

/-- Witness for the C5 theorem on a concrete batch of two queries targeting
the same file "a" with different extents, downsampling factors and
accuracies: the hypotheses hold and the theorem applies. -/
theorem decodeMultipleFiles_single_covering_decode_witness :
    (exBatch ≠ [] ∧ ∀ i ∈ exBatch, i.InFile = "a") ∧
    (∃ h t, sortInputs exBatch = h :: t ∧
      (DecodeMultipleFiles exBatch).2 = [coveringInput (h :: t)] ∧
      (coveringInput (h :: t)).InFile = "a" ∧
      (coveringInput (h :: t)).Downsampling3 = h.1.Downsampling3 ∧
      (coveringInput (h :: t)).Accuracy = h.1.Accuracy ∧
      ∀ d : dimension,
        (∀ i ∈ exBatch,
          (coveringInput (h :: t)).Extent.From.nth d ≤ i.Extent.From.nth d ∧
          i.Extent.Last.nth d ≤ (coveringInput (h :: t)).Extent.Last.nth d) ∧
        (∃ i ∈ exBatch,
          (coveringInput (h :: t)).Extent.From.nth d = i.Extent.From.nth d) ∧
        (∃ i ∈ exBatch,
          (coveringInput (h :: t)).Extent.Last.nth d = i.Extent.Last.nth d)) :=
  ⟨⟨by decide, by decide⟩,
    decodeMultipleFiles_single_covering_decode exBatch "a" (by decide) (by decide)⟩

/-- C10: for every logical query generated by the query-generation loop of
ExecuteQuery from a spatial range whose face index is greater than 2, the X
and Y components of the caller's downsampling factor are swapped before the
query is dispatched; for face indices up to 2 the downsampling factor is
passed through unchanged. -/
theorem executeQuery_swaps_downsampling_above_face2 (Q : query_info)
    (x : Int × input × output_metadata) (hx : x ∈ executeQueryAssignments Q) :
    (2 < x.2.2.Face → x.2.1.Downsampling3 = swapXY Q.Downsampling3) ∧
    (x.2.2.Face ≤ 2 → x.2.1.Downsampling3 = Q.Downsampling3) := by
  rw [executeQueryAssignments] at hx
  simp only [List.mem_flatMap, List.mem_singleton] at hx
  obtain ⟨D, hD, FR, hFR, T, hT, rfl⟩ := hx
  rw [buildQueryEntry]
  by_cases hf : FR.2.Face > 2
  · simp only [if_pos hf]
    exact ⟨fun _ => trivial, fun hle => absurd hf (by omega)⟩
  · simp only [if_neg hf]
    exact ⟨fun hgt => absurd hgt hf, fun _ => trivial⟩

/-- Witness for the C10 theorem: in the concrete configuration
`exQueryInfo`, the query generated for the face-3 spatial range carries the
downsampling factor with X and Y swapped. -/
theorem executeQuery_swaps_downsampling_above_face2_witness :
    exEntry ∈ executeQueryAssignments exQueryInfo ∧
    ((2 < exEntry.2.2.Face →
        exEntry.2.1.Downsampling3 = swapXY exQueryInfo.Downsampling3) ∧
      (exEntry.2.2.Face ≤ 2 →
        exEntry.2.1.Downsampling3 = exQueryInfo.Downsampling3)) :=
  ⟨by decide,
    executeQuery_swaps_downsampling_above_face2 exQueryInfo exEntry (by decide)⟩

end Idx2Test
